import Mathlib

set_option maxRecDepth 80000

/-
Verification of the file-rewrite utility fix_project_manager.py.

The script reads one file at a fixed path, applies six re.sub calls in a fixed
order to the in-memory text, writes the result back to the same path and prints
one success line.  Every one of the six regex patterns consists exclusively of
escaped metacharacters and ordinary characters (braces in them never form
quantifiers), so each pattern matches exactly one literal string and each
re.sub call is a global leftmost non-overlapping literal replacement.  The
replacement strings contain no backslash, so they are inserted verbatim.
Texts are modelled as List Char; the six literals appear below exactly as the
unescaped patterns in the source.
-/

/-- Fuel-indexed global leftmost non-overlapping literal replacement.  With
fuel at least the length of the text this computes exactly what re.sub does for
a non-empty literal pattern: scan left to right, on a match emit the
replacement and continue after the matched block, otherwise keep the character
and move on.  The fuel argument only makes the recursion structural. -/
def replaceAllFuel (pat repl : List Char) : Nat → List Char → List Char
  | 0, s => s
  | n + 1, s =>
    match s with
    | [] => []
    | c :: rest =>
      if !pat.isEmpty && pat.isPrefixOf (c :: rest) then
        repl ++ replaceAllFuel pat repl n (List.drop (pat.length - 1) rest)
      else
        c :: replaceAllFuel pat repl n rest

/-- Global replacement of every leftmost non-overlapping occurrence of a
literal pattern: the semantics of one re.sub call of the script. -/
def replaceAll (pat repl s : List Char) : List Char :=
  replaceAllFuel pat repl s.length s

/-- Whether pat occurs as a contiguous substring of s. -/
def occursB (pat : List Char) : List Char → Bool
  | [] => pat.isEmpty
  | c :: rest => pat.isPrefixOf (c :: rest) || occursB pat rest

/-- Concatenation of chunks interleaved with a fixed separator; used to state
the frame property of replaceAll. -/
def joinWith (sep : List Char) : List (List Char) → List Char
  | [] => []
  | [x] => x
  | x :: y :: xs => x ++ sep ++ joinWith sep (y :: xs)
/-- The literal text matched by the regex of substitution 1 in fix_project_manager.py (the pattern is a fully escaped literal, so it matches exactly this string). -/
def pat1 : List Char := "const [formData, setFormData] = useState(\x7b name: \x27\x27, color: COLORS[0], customerId: undefined as number | undefined \x7d)".data

/-- The replacement text of substitution 1 in fix_project_manager.py. -/
def rep1 : List Char := "const [formData, setFormData] = useState(\x7b name: \x27\x27, color: COLORS[0], customerFirestoreId: undefined as string | undefined \x7d)".data

/-- The literal text matched by the regex of substitution 2 in fix_project_manager.py (the pattern is a fully escaped literal, so it matches exactly this string). -/
def pat2 : List Char := "setFormData(\x7b name: \x27\x27, color: COLORS[0], customerId: undefined \x7d)".data

/-- The replacement text of substitution 2 in fix_project_manager.py. -/
def rep2 : List Char := "setFormData(\x7b name: \x27\x27, color: COLORS[0], customerFirestoreId: undefined \x7d)".data

/-- The literal text matched by the regex of substitution 3 in fix_project_manager.py (the pattern is a fully escaped literal, so it matches exactly this string). -/
def pat3 : List Char := "setFormData(\x7b name: project.name, color: project.color, customerId: project.customerId \x7d)".data

/-- The replacement text of substitution 3 in fix_project_manager.py. -/
def rep3 : List Char := "setFormData(\x7b name: project.name, color: project.color, customerFirestoreId: project.customerFirestoreId \x7d)".data

/-- The literal text matched by the regex of substitution 4 in fix_project_manager.py (the pattern is a fully escaped literal, so it matches exactly this string). -/
def pat4 : List Char := "    try \x7b\n      if (editingProject) \x7b\n        await updateProject(editingProject.id!, \x7b\n          name: formData.name.trim(),\n          color: formData.color,\n          customerId: formData.customerId\n        \x7d)\n        showToast(\x27Project updated\x27, \x27success\x27)\n      \x7d else \x7b\n        await createProject(\x7b\n          name: formData.name.trim(),\n          color: formData.color,\n          customerId: formData.customerId,\n          archived: false\n        \x7d)\n        showToast(\x27Project created\x27, \x27success\x27)\n      \x7d\n\n      setEditingProject(null)\n      setIsCreating(false)\n      setFormData(\x7b name: \x27\x27, color: COLORS[0], customerId: undefined \x7d)\n    \x7d catch (error) \x7b\n      showToast(\x27Failed to save project\x27, \x27error\x27)\n    \x7d".data

/-- The replacement text of substitution 4 in fix_project_manager.py. -/
def rep4 : List Char := "    try \x7b\n      // Find the customer\x27s local ID for backward compatibility\n      const customer = formData.customerFirestoreId \n        ? customers.find(c => c.firestoreId === formData.customerFirestoreId)\n        : undefined;\n\n      if (editingProject) \x7b\n        await updateProject(editingProject.id!, \x7b\n          name: formData.name.trim(),\n          color: formData.color,\n          customerId: customer?.id,\n          customerFirestoreId: formData.customerFirestoreId\n        \x7d)\n        showToast(\x27Project updated\x27, \x27success\x27)\n      \x7d else \x7b\n        await createProject(\x7b\n          name: formData.name.trim(),\n          color: formData.color,\n          customerId: customer?.id,\n          customerFirestoreId: formData.customerFirestoreId,\n          archived: false\n        \x7d)\n        showToast(\x27Project created\x27, \x27success\x27)\n      \x7d\n\n      setEditingProject(null)\n      setIsCreating(false)\n      setFormData(\x7b name: \x27\x27, color: COLORS[0], customerFirestoreId: undefined \x7d)\n    \x7d catch (error) \x7b\n      showToast(\x27Failed to save project\x27, \x27error\x27)\n    \x7d".data

/-- The literal text matched by the regex of substitution 5 in fix_project_manager.py (the pattern is a fully escaped literal, so it matches exactly this string). -/
def pat5 : List Char := "                <select\n                  value=\x7bformData.customerId || \x27\x27\x7d\n                  onChange=\x7b(e) => setFormData(\x7b ...formData, customerId: e.target.value ? Number(e.target.value) : undefined \x7d)\x7d\n                  className=\"w-full border border-gray-300 dark:border-gray-600 dark:bg-gray-800 dark:text-white rounded-md px-3 py-2 focus:outline-none focus:ring-2 focus:ring-blue-500\"\n                >\n                  <option value=\"\">No customer</option>\n                  \x7bcustomers.filter(c => !c.archived).map((customer) => (\n                    <option key=\x7bcustomer.id\x7d value=\x7bcustomer.id\x7d>\n                      \x7bcustomer.companyName\x7d\n                    </option>\n                  ))\x7d\n                </select>".data

/-- The replacement text of substitution 5 in fix_project_manager.py. -/
def rep5 : List Char := "                <select\n                  value=\x7bformData.customerFirestoreId || \x27\x27\x7d\n                  onChange=\x7b(e) => setFormData(\x7b ...formData, customerFirestoreId: e.target.value || undefined \x7d)\x7d\n                  className=\"w-full border border-gray-300 dark:border-gray-600 dark:bg-gray-800 dark:text-white rounded-md px-3 py-2 focus:outline-none focus:ring-2 focus:ring-blue-500\"\n                >\n                  <option value=\"\">No customer</option>\n                  \x7bcustomers.filter(c => !c.archived).map((customer) => (\n                    <option key=\x7bcustomer.id\x7d value=\x7bcustomer.firestoreId\x7d>\n                      \x7bcustomer.companyName\x7d\n                    </option>\n                  ))\x7d\n                </select>".data

/-- The literal text matched by the regex of substitution 6 in fix_project_manager.py (the pattern is a fully escaped literal, so it matches exactly this string). -/
def pat6 : List Char := "function ProjectItem(\x7b project, onEdit, onDelete, onArchive \x7d: ProjectItemProps) \x7b\n  return (\n    <div className=\x7b`\n      flex items-center justify-between p-3 border border-gray-200 dark:border-gray-700 rounded-lg\n      $\x7bproject.archived ? \x27bg-gray-50 dark:bg-gray-700 opacity-75\x27 : \x27bg-white dark:bg-gray-800 hover:bg-gray-50 dark:hover:bg-gray-700\x27\x7d\n    `\x7d>\n      <div className=\"flex items-center\">\n        <div\n          className=\"w-4 h-4 rounded-full mr-3 flex-shrink-0\"\n          style=\x7b\x7b backgroundColor: project.color \x7d\x7d\n        />\n        <span className=\x7b`font-medium $\x7bproject.archived ? \x27text-gray-500 dark:text-gray-400\x27 : \x27text-gray-900 dark:text-white\x27\x7d`\x7d>\n          \x7bproject.name\x7d\n        </span>\n        \x7bproject.archived && (\n          <span className=\"ml-2 px-2 py-1 bg-gray-200 dark:bg-gray-600 text-gray-600 dark:text-gray-300 text-xs rounded-full\">\n            Archived\n          </span>\n        )\x7d\n      </div>".data

/-- The replacement text of substitution 6 in fix_project_manager.py. -/
def rep6 : List Char := "function ProjectItem(\x7b project, onEdit, onDelete, onArchive \x7d: ProjectItemProps) \x7b\n  const \x7b customers \x7d = useCustomersStore();\n  const customer = project.customerFirestoreId \n    ? customers.find(c => c.firestoreId === project.customerFirestoreId)\n    : undefined;\n\n  return (\n    <div className=\x7b`\n      flex items-center justify-between p-3 border border-gray-200 dark:border-gray-700 rounded-lg\n      $\x7bproject.archived ? \x27bg-gray-50 dark:bg-gray-700 opacity-75\x27 : \x27bg-white dark:bg-gray-800 hover:bg-gray-50 dark:hover:bg-gray-700\x27\x7d\n    `\x7d>\n      <div className=\"flex items-center\">\n        <div\n          className=\"w-4 h-4 rounded-full mr-3 flex-shrink-0\"\n          style=\x7b\x7b backgroundColor: project.color \x7d\x7d\n        />\n        <div className=\"flex flex-col\">\n          <span className=\x7b`font-medium $\x7bproject.archived ? \x27text-gray-500 dark:text-gray-400\x27 : \x27text-gray-900 dark:text-white\x27\x7d`\x7d>\n            \x7bproject.name\x7d\n          </span>\n          \x7bcustomer && (\n            <span className=\"text-xs text-gray-500 dark:text-gray-400\">\n              \x7bcustomer.companyName\x7d\n            </span>\n          )\x7d\n        </div>\n        \x7bproject.archived && (\n          <span className=\"ml-2 px-2 py-1 bg-gray-200 dark:bg-gray-600 text-gray-600 dark:text-gray-300 text-xs rounded-full\">\n            Archived\n          </span>\n        )\x7d\n      </div>".data

/-- The bare line mentioned by the spec: customerId: undefined as number | undefined. -/
def bareLine : List Char := "customerId: undefined as number | undefined".data

/-- The part of the handleSubmit fragment before its inner reset line: pattern 4
equals pat4A ++ pat2 ++ pat4B, which is why substitution 2 always destroys any
occurrence of pattern 4 before substitution 4 runs. -/
def pat4A : List Char := "    try \x7b\n      if (editingProject) \x7b\n        await updateProject(editingProject.id!, \x7b\n          name: formData.name.trim(),\n          color: formData.color,\n          customerId: formData.customerId\n        \x7d)\n        showToast(\x27Project updated\x27, \x27success\x27)\n      \x7d else \x7b\n        await createProject(\x7b\n          name: formData.name.trim(),\n          color: formData.color,\n          customerId: formData.customerId,\n          archived: false\n        \x7d)\n        showToast(\x27Project created\x27, \x27success\x27)\n      \x7d\n\n      setEditingProject(null)\n      setIsCreating(false)\n      ".data

/-- The part of the handleSubmit fragment after its inner reset line. -/
def pat4B : List Char := "\n    \x7d catch (error) \x7b\n      showToast(\x27Failed to save project\x27, \x27error\x27)\n    \x7d".data

/-- The fixed path hard-coded in both open() calls of the script. -/
def targetPath : List Char := "src/components/ProjectManagerModal.tsx".data

/-- The literal success line printed by the script (print appends a newline). -/
def successLine : List Char := "File updated successfully!".data

/-- Substitution 1 of the script: the formData useState declaration. -/
def sub1 (t : List Char) : List Char := replaceAll pat1 rep1 t

/-- Substitution 2 of the script: the setFormData reset call. -/
def sub2 (t : List Char) : List Char := replaceAll pat2 rep2 t

/-- Substitution 3 of the script: the handleEdit setFormData call. -/
def sub3 (t : List Char) : List Char := replaceAll pat3 rep3 t

/-- Substitution 4 of the script: the handleSubmit try-block. -/
def sub4 (t : List Char) : List Char := replaceAll pat4 rep4 t

/-- Substitution 5 of the script: the customer select dropdown. -/
def sub5 (t : List Char) : List Char := replaceAll pat5 rep5 t

/-- Substitution 6 of the script: the ProjectItem function header. -/
def sub6 (t : List Char) : List Char := replaceAll pat6 rep6 t

/-- The six content assignments of the script composed in their textual order:
each substitution receives the previous substitution's output. -/
def applyAll (t : List Char) : List Char := sub6 (sub5 (sub4 (sub3 (sub2 (sub1 t)))))

/-- The six transformations in their fixed order, as pattern-replacement pairs. -/
def subsList : List (List Char × List Char) :=
  [(pat1, rep1), (pat2, rep2), (pat3, rep3), (pat4, rep4), (pat5, rep5), (pat6, rep6)]

/-- Events observable from the outside, in the order the script performs them. -/
inductive Ev where
  | readEv : List Char → List Char → Ev
  | writeEv : List Char → List Char → Ev
  | printEv : List Char → Ev

/-- Whether an event is a line printed to standard output. -/
def isPrintEv : Ev → Bool
  | Ev.printEv _ => true
  | _ => false

/-- Final status of a run: normal termination or an unhandled I/O error. -/
inductive Outcome where
  | ok : Outcome
  | ioError : Outcome

/-- Content of a file in an association-list filesystem, none when the path
does not exist (or cannot be opened for reading). -/
def lookupFile : List (List Char × List Char) → List Char → Option (List Char)
  | [], _ => none
  | (p, c) :: rest, q => if p = q then some c else lookupFile rest q

/-- Overwrite the content stored at a path, creating the entry if absent. -/
def writeFile : List (List Char × List Char) → List Char → List Char → List (List Char × List Char)
  | [], q, d => [(q, d)]
  | (p, c) :: rest, q, d => if p = q then (q, d) :: rest else (p, c) :: writeFile rest q d

/-- The whole script run on a filesystem: open the fixed path for reading
(an unhandled exception ends the run before anything is written or printed when
that fails), apply the six substitutions in order, write the result back to the
same path, then print the success line.  The returned trace lists the external
actions in the order the script performs them. -/
def runScript (fs : List (List Char × List Char)) :
    Outcome × List (List Char × List Char) × List Ev :=
  match lookupFile fs targetPath with
  | none => (Outcome.ioError, fs, [])
  | some content =>
      (Outcome.ok, writeFile fs targetPath (applyAll content),
        [Ev.readEv targetPath content, Ev.writeEv targetPath (applyAll content),
         Ev.printEv successLine])

/-- Two-newline separator used by the test fixtures below. -/
def sepNl : List Char := "\n\n".data

/-- A fixture containing all six original fragments verbatim. -/
def fixtureAll : List Char :=
  pat1 ++ sepNl ++ pat2 ++ sepNl ++ pat3 ++ sepNl ++ pat4 ++ sepNl ++ pat5 ++ sepNl ++ pat6

/-- A fixture containing exactly five of the six original fragments: only the
formData useState declaration (fragment 1) is missing. -/
def fixtureMissing : List Char :=
  pat2 ++ sepNl ++ pat3 ++ sepNl ++ pat4 ++ sepNl ++ pat5 ++ sepNl ++ pat6

/-- What the six substitutions produce on fixtureAll: fragments 1, 2, 3, 5 and 6
are rewritten, while the handleSubmit block only has its inner reset line
rewritten by substitution 2 (pattern 4 = pat4A ++ pat2 ++ pat4B no longer
matches when substitution 4 runs). -/
def outAllL : List Char :=
  rep1 ++ sepNl ++ rep2 ++ sepNl ++ rep3 ++ sepNl ++ pat4A ++ rep2 ++ pat4B ++ sepNl ++
    rep5 ++ sepNl ++ rep6

/-- What the six substitutions produce on fixtureMissing. -/
def outMissingL : List Char :=
  rep2 ++ sepNl ++ rep3 ++ sepNl ++ pat4A ++ rep2 ++ pat4B ++ sepNl ++ rep5 ++ sepNl ++ rep6

/-- The fuel argument of replaceAllFuel is irrelevant once it reaches the
length of the text. -/
theorem replaceAllFuel_congr (pat repl : List Char) :
    ∀ n m s, s.length ≤ n → s.length ≤ m →
      replaceAllFuel pat repl n s = replaceAllFuel pat repl m s := by
  intro n
  induction n with
  | zero =>
    intro m s hn _
    have hs : s = [] := List.eq_nil_of_length_eq_zero (Nat.le_zero.mp hn)
    subst hs
    cases m <;> rfl
  | succ n ih =>
    intro m s hn hm
    cases s with
    | nil => cases m <;> rfl
    | cons c rest =>
      cases m with
      | zero => simp at hm
      | succ m =>
        simp only [replaceAllFuel]
        by_cases h : (!pat.isEmpty && pat.isPrefixOf (c :: rest)) = true
        · rw [if_pos h, if_pos h]
          have h1 : (List.drop (pat.length - 1) rest).length ≤ n := by
            simp only [List.length_drop]
            simp only [List.length_cons] at hn
            omega
          have h2 : (List.drop (pat.length - 1) rest).length ≤ m := by
            simp only [List.length_drop]
            simp only [List.length_cons] at hm
            omega
          rw [ih m _ h1 h2]
        · rw [if_neg h, if_neg h]
          have h1 : rest.length ≤ n := by
            simp only [List.length_cons] at hn
            omega
          have h2 : rest.length ≤ m := by
            simp only [List.length_cons] at hm
            omega
          rw [ih m _ h1 h2]

/-- Any sufficient fuel computes replaceAll. -/
theorem replaceAll_eq_fuel (pat repl : List Char) (n : Nat) (s : List Char)
    (h : s.length ≤ n) : replaceAllFuel pat repl n s = replaceAll pat repl s :=
  replaceAllFuel_congr pat repl n s.length s h (Nat.le_refl _)

/-- Step equation of replaceAll at a match position. -/
theorem replaceAll_cons_pos {pat repl : List Char} {c : Char} {rest : List Char}
    (hm : (!pat.isEmpty && pat.isPrefixOf (c :: rest)) = true) :
    replaceAll pat repl (c :: rest) =
      repl ++ replaceAll pat repl (List.drop (pat.length - 1) rest) := by
  show replaceAllFuel pat repl (c :: rest).length (c :: rest) = _
  rw [List.length_cons]
  simp only [replaceAllFuel]
  rw [if_pos hm]
  rw [replaceAll_eq_fuel pat repl rest.length _ (by simp only [List.length_drop]; omega)]

/-- Step equation of replaceAll at a non-match position. -/
theorem replaceAll_cons_neg {pat repl : List Char} {c : Char} {rest : List Char}
    (hm : (!pat.isEmpty && pat.isPrefixOf (c :: rest)) = false) :
    replaceAll pat repl (c :: rest) = c :: replaceAll pat repl rest := by
  show replaceAllFuel pat repl (c :: rest).length (c :: rest) = _
  rw [List.length_cons]
  simp only [replaceAllFuel]
  rw [if_neg (by rw [hm]; exact Bool.false_ne_true)]
  rw [replaceAll_eq_fuel pat repl rest.length rest (Nat.le_refl _)]

/-- Step equation of replaceAll when the pattern is not a prefix here. -/
theorem replaceAll_cons_of_not_isPrefixOf {pat repl : List Char} {c : Char} {rest : List Char}
    (h : pat.isPrefixOf (c :: rest) = false) :
    replaceAll pat repl (c :: rest) = c :: replaceAll pat repl rest :=
  replaceAll_cons_neg (by rw [h, Bool.and_false])

/-- occursB decides substring occurrence. -/
theorem occursB_true_iff {pat s : List Char} : occursB pat s = true ↔ pat <:+: s := by
  induction s with
  | nil =>
    simp [occursB, List.infix_nil, List.isEmpty_iff]
  | cons c rest ih =>
    simp only [occursB, Bool.or_eq_true, ih, List.infix_cons_iff,
      List.isPrefixOf_iff_prefix]

/-- The negative form of occursB_true_iff. -/
theorem occursB_eq_false_iff {pat s : List Char} : occursB pat s = false ↔ ¬ pat <:+: s := by
  rw [← occursB_true_iff]
  simp

/-- A pattern longer than the text never occurs in it. -/
theorem occursB_eq_false_of_length {pat s : List Char} (h : s.length < pat.length) :
    occursB pat s = false := by
  rw [occursB_eq_false_iff]
  intro hin
  have := hin.length_le
  omega

/-- A transformation whose pattern does not occur leaves the text unchanged:
the silent no-op behaviour of re.sub. -/
theorem replaceAll_of_not_occurs {pat repl s : List Char} (h : occursB pat s = false) :
    replaceAll pat repl s = s := by
  induction s with
  | nil => rfl
  | cons c rest ih =>
    rw [show occursB pat (c :: rest) =
        (pat.isPrefixOf (c :: rest) || occursB pat rest) from rfl,
      Bool.or_eq_false_iff] at h
    rw [replaceAll_cons_of_not_isPrefixOf h.1, ih h.2]

/-- A prefix of an append is a prefix of the left part or extends it. -/
theorem prefix_append_cases {q a b : List Char} (h : q <+: a ++ b) :
    q <+: a ∨ (a <+: q ∧ List.drop a.length q <+: b ∧ q = a ++ List.drop a.length q) := by
  by_cases hl : q.length ≤ a.length
  · left
    exact (List.isPrefix_append_of_length hl).mp h
  · right
    have ha : a <+: q :=
      List.prefix_of_prefix_length_le (List.prefix_append a b) h (by omega)
    obtain ⟨t, ht⟩ := ha
    have hdrop : List.drop a.length q = t := by rw [← ht, List.drop_left]
    refine ⟨⟨t, ht⟩, ?_, ?_⟩
    · rw [hdrop]
      have hsub : a ++ t <+: a ++ b := ht ▸ h
      exact (List.prefix_append_right_inj a).mp hsub
    · rw [hdrop, ht]

/-- An infix of the left part of an append is an infix of the append. -/
theorem infix_append_of_left {q a : List Char} (b : List Char) (h : q <:+: a) :
    q <:+: a ++ b :=
  h.trans (List.prefix_append a b).isInfix

/-- An infix of the right part of an append is an infix of the append. -/
theorem infix_append_of_right {q b : List Char} (a : List Char) (h : q <:+: b) :
    q <:+: a ++ b :=
  h.trans (List.suffix_append a b).isInfix

/-- An infix of a cons tail is an infix of the cons. -/
theorem infix_cons_of_tail {q l : List Char} (c : Char) (h : q <:+: l) :
    q <:+: c :: l :=
  h.trans (List.suffix_cons c l).isInfix

/-- Every occurrence in an append lies in the left part, in the right part, or
straddles the junction. -/
theorem infix_append_cases {q a b : List Char} (h : q <:+: a ++ b) :
    q <:+: a ∨ q <:+: b ∨
      ∃ u v, q = u ++ v ∧ u ≠ [] ∧ v ≠ [] ∧ u <:+ a ∧ v <+: b := by
  induction a with
  | nil =>
    right; left
    simpa using h
  | cons c a' ih =>
    rw [List.cons_append, List.infix_cons_iff] at h
    rcases h with hp | hi
    · cases q with
      | nil =>
        left
        exact List.nil_infix
      | cons x q' =>
        rw [List.cons_prefix_cons] at hp
        obtain ⟨rfl, hq'⟩ := hp
        rcases prefix_append_cases hq' with h1 | ⟨h2a, h2b, h2c⟩
        · left
          exact (List.cons_prefix_cons.mpr ⟨rfl, h1⟩).isInfix
        · by_cases ht : List.drop a'.length q' = []
          · left
            have hq : x :: q' <+: x :: a' := by
              rw [List.cons_prefix_cons]
              refine ⟨rfl, ?_⟩
              conv_lhs => rw [h2c, ht, List.append_nil]
            exact hq.isInfix
          · right; right
            refine ⟨x :: a', List.drop a'.length q', ?_, by simp, ht, List.suffix_rfl, h2b⟩
            rw [List.cons_append, ← h2c]
    · rcases ih hi with h1 | h2 | ⟨u, v, hq, hu, hv, hus, hvp⟩
      · left
        exact infix_cons_of_tail c h1
      · right; left
        exact h2
      · right; right
        exact ⟨u, v, hq, hu, hv, hus.trans (List.suffix_cons c a'), hvp⟩

/-- Overlap side conditions under which one replaceAll pass with replacement
repl can neither keep nor create an occurrence of p: no nonempty suffix of the
inserted replacement is a prefix of p, no nonempty proper suffix of p is a
prefix of the replacement, and neither of p and the replacement occurs inside
the other. -/
def SafePair (p repl : List Char) : Prop :=
  (∀ t ∈ repl.tails, t = [] ∨ ¬ t <+: p) ∧
  (∀ w ∈ p.tails, w = [] ∨ w = p ∨ ¬ w <+: repl) ∧
  ¬ p <:+: repl ∧ ¬ repl <:+: p

instance (p repl : List Char) : Decidable (SafePair p repl) := by
  unfold SafePair
  infer_instance

/-- Inside a replaceAll pass, a nonempty proper suffix of p that is a prefix
of the output was already a prefix of the input at the same position. -/
theorem drop_prefix_of_prefix_replaceAll {p repl : List Char}
    (hc2 : ∀ w ∈ p.tails, w = [] ∨ w = p ∨ ¬ w <+: repl)
    (hc4 : ¬ repl <:+: p) :
    ∀ n (pat s : List Char) (k : Nat), s.length ≤ n → 0 < k → k < p.length →
      List.drop k p <+: replaceAll pat repl s → List.drop k p <+: s := by
  intro n
  induction n with
  | zero =>
    intro pat s k hs _ _ h
    have hnil : s = [] := List.eq_nil_of_length_eq_zero (Nat.le_zero.mp hs)
    subst hnil
    exact h
  | succ n ih =>
    intro pat s k hs hk0 hkp h
    cases s with
    | nil => exact h
    | cons c rest =>
      have hw_ne : List.drop k p ≠ [] := by
        intro he
        have := congrArg List.length he
        simp only [List.length_drop, List.length_nil] at this
        omega
      by_cases hm : (!pat.isEmpty && pat.isPrefixOf (c :: rest)) = true
      · rw [replaceAll_cons_pos hm] at h
        exfalso
        rcases prefix_append_cases h with h1 | ⟨h2, _, _⟩
        · have hmem : List.drop k p ∈ p.tails := (List.mem_tails _ _).mpr (List.drop_suffix k p)
          rcases hc2 _ hmem with he | he | hnp
          · exact hw_ne he
          · have := congrArg List.length he
            simp only [List.length_drop] at this
            omega
          · exact hnp h1
        · exact hc4 (h2.isInfix.trans (List.drop_suffix k p).isInfix)
      · rw [replaceAll_cons_neg (Bool.eq_false_iff.mpr hm)] at h
        obtain ⟨x, w', hw⟩ := List.exists_cons_of_ne_nil hw_ne
        rw [hw, List.cons_prefix_cons] at h
        obtain ⟨rfl, h'⟩ := h
        have hw' : w' = List.drop (k + 1) p := by
          have ht := List.tail_drop p k
          rw [hw] at ht
          simpa using ht
        have hrest : rest.length ≤ n := by
          simp only [List.length_cons] at hs
          omega
        rw [hw, List.cons_prefix_cons]
        refine ⟨rfl, ?_⟩
        by_cases hk1 : k + 1 < p.length
        · have := ih pat rest (k + 1) hrest (by omega) hk1 (by rw [← hw']; exact h')
          rw [hw']
          exact this
        · have hwnil : w' = [] := by
            rw [hw']
            exact List.drop_eq_nil_of_le (by omega)
          rw [hwnil]
          exact List.nil_prefix

/-- After one replaceAll pass with a SafePair, the pattern itself no longer
occurs anywhere in the output. -/
theorem not_occurs_self_replaceAll {pat repl : List Char} (hne : pat ≠ [])
    (hsp : SafePair pat repl) :
    ∀ n s, s.length ≤ n → occursB pat (replaceAll pat repl s) = false := by
  obtain ⟨hc1, hc2, hc3, hc4⟩ := hsp
  have hlen : 0 < pat.length := List.length_pos.mpr hne
  intro n
  induction n with
  | zero =>
    intro s hs
    have hnil : s = [] := List.eq_nil_of_length_eq_zero (Nat.le_zero.mp hs)
    subst hnil
    exact occursB_eq_false_of_length (by simpa using hlen)
  | succ n ih =>
    intro s hs
    cases s with
    | nil => exact occursB_eq_false_of_length (by simpa using hlen)
    | cons c rest =>
      have hrest : rest.length ≤ n := by
        simp only [List.length_cons] at hs
        omega
      by_cases hm : (!pat.isEmpty && pat.isPrefixOf (c :: rest)) = true
      · rw [replaceAll_cons_pos hm]
        rw [occursB_eq_false_iff]
        intro hin
        rcases infix_append_cases hin with h1 | h2 | ⟨u, v, hq, hu, _, hus, _⟩
        · exact hc3 h1
        · have hd : (List.drop (pat.length - 1) rest).length ≤ n := by
            simp only [List.length_drop]
            omega
          have hr := ih (List.drop (pat.length - 1) rest) hd
          rw [occursB_eq_false_iff] at hr
          exact hr h2
        · rcases hc1 u ((List.mem_tails _ _).mpr hus) with he | hnp
          · exact hu he
          · exact hnp (hq ▸ List.prefix_append u v)
      · have hmf : (!pat.isEmpty && pat.isPrefixOf (c :: rest)) = false :=
          Bool.eq_false_iff.mpr hm
        rw [replaceAll_cons_neg hmf]
        rw [occursB_eq_false_iff]
        intro hin
        rw [List.infix_cons_iff] at hin
        have hpf : pat.isPrefixOf (c :: rest) = false := by
          have hemp : pat.isEmpty = false := by
            simpa using hne
          cases hip : pat.isPrefixOf (c :: rest) with
          | false => rfl
          | true =>
            exact absurd (by rw [hemp, hip]; rfl) hm
        rcases hin with hp | hi
        · cases pat with
          | nil => exact hne rfl
          | cons x p' =>
            rw [List.cons_prefix_cons] at hp
            obtain ⟨rfl, hp'⟩ := hp
            have hprest : p' <+: rest := by
              by_cases hpnil : p' = []
              · subst hpnil
                exact List.nil_prefix
              · have h1lt : 1 < (x :: p').length := by
                  have := List.length_pos.mpr hpnil
                  simp only [List.length_cons]
                  omega
                have hres := drop_prefix_of_prefix_replaceAll hc2 hc4 n (x :: p') rest 1
                  hrest (by omega) h1lt (by simpa using hp')
                simpa using hres
            have htrue : (x :: p').isPrefixOf (x :: rest) = true :=
              List.isPrefixOf_iff_prefix.mpr (List.cons_prefix_cons.mpr ⟨rfl, hprest⟩)
            rw [hpf] at htrue
            exact Bool.false_ne_true htrue
        · have hr := ih rest hrest
          rw [occursB_eq_false_iff] at hr
          exact hr hi

/-- A replaceAll pass with a SafePair cannot create an occurrence of p in a
text that had none. -/
theorem not_occurs_replaceAll_preserve {p repl : List Char} (hsp : SafePair p repl) :
    ∀ n (pat s : List Char), s.length ≤ n → occursB p s = false →
      occursB p (replaceAll pat repl s) = false := by
  obtain ⟨hc1, hc2, hc3, hc4⟩ := hsp
  intro n
  induction n with
  | zero =>
    intro pat s hs h
    have hnil : s = [] := List.eq_nil_of_length_eq_zero (Nat.le_zero.mp hs)
    subst hnil
    exact h
  | succ n ih =>
    intro pat s hs h
    cases s with
    | nil => exact h
    | cons c rest =>
      have hrest : rest.length ≤ n := by
        simp only [List.length_cons] at hs
        omega
      have hh : p.isPrefixOf (c :: rest) = false ∧ occursB p rest = false := by
        rw [show occursB p (c :: rest) =
            (p.isPrefixOf (c :: rest) || occursB p rest) from rfl,
          Bool.or_eq_false_iff] at h
        exact h
      have hpne : p ≠ [] := by
        intro he
        subst he
        simp [List.isPrefixOf] at hh
      by_cases hm : (!pat.isEmpty && pat.isPrefixOf (c :: rest)) = true
      · rw [replaceAll_cons_pos hm]
        rw [occursB_eq_false_iff]
        intro hin
        rcases infix_append_cases hin with h1 | h2 | ⟨u, v, hq, hu, _, hus, _⟩
        · exact hc3 h1
        · have hd : (List.drop (pat.length - 1) rest).length ≤ n := by
            simp only [List.length_drop]
            omega
          have hdropf : occursB p (List.drop (pat.length - 1) rest) = false := by
            rw [occursB_eq_false_iff]
            intro hind
            have hocc : p <:+: c :: rest :=
              infix_cons_of_tail c (hind.trans (List.drop_suffix _ _).isInfix)
            rw [← occursB_true_iff] at hocc
            rw [hocc] at h
            exact absurd h (by decide)
          have hr := ih pat _ hd hdropf
          rw [occursB_eq_false_iff] at hr
          exact hr h2
        · rcases hc1 u ((List.mem_tails _ _).mpr hus) with he | hnp
          · exact hu he
          · exact hnp (hq ▸ List.prefix_append u v)
      · have hmf : (!pat.isEmpty && pat.isPrefixOf (c :: rest)) = false :=
          Bool.eq_false_iff.mpr hm
        rw [replaceAll_cons_neg hmf]
        rw [occursB_eq_false_iff]
        intro hin
        rw [List.infix_cons_iff] at hin
        rcases hin with hp | hi
        · cases p with
          | nil => exact hpne rfl
          | cons x p' =>
            rw [List.cons_prefix_cons] at hp
            obtain ⟨rfl, hp'⟩ := hp
            have hprest : p' <+: rest := by
              by_cases hpnil : p' = []
              · subst hpnil
                exact List.nil_prefix
              · have h1lt : 1 < (x :: p').length := by
                  have := List.length_pos.mpr hpnil
                  simp only [List.length_cons]
                  omega
                have hres := drop_prefix_of_prefix_replaceAll hc2 hc4 n pat rest 1
                  hrest (by omega) h1lt (by simpa using hp')
                simpa using hres
            have htrue : (x :: p').isPrefixOf (x :: rest) = true :=
              List.isPrefixOf_iff_prefix.mpr (List.cons_prefix_cons.mpr ⟨rfl, hprest⟩)
            rw [hh.1] at htrue
            exact Bool.false_ne_true htrue
        · have hr := ih pat rest hrest hh.2
          rw [occursB_eq_false_iff] at hr
          exact hr hi

/-- Wrapper of not_occurs_self_replaceAll without the fuel bound. -/
theorem occursB_replaceAll_self {pat repl : List Char} (hne : pat ≠ [])
    (hsp : SafePair pat repl) (s : List Char) :
    occursB pat (replaceAll pat repl s) = false :=
  not_occurs_self_replaceAll hne hsp s.length s (Nat.le_refl _)

/-- Wrapper of not_occurs_replaceAll_preserve without the fuel bound. -/
theorem occursB_replaceAll_preserve {p repl pat s : List Char} (hsp : SafePair p repl)
    (h : occursB p s = false) : occursB p (replaceAll pat repl s) = false :=
  not_occurs_replaceAll_preserve hsp s.length pat s (Nat.le_refl _) h

/-- When the first occurrence of the pattern is the explicit one, replaceAll
keeps the part before it verbatim, substitutes, and continues after it:
the leftmost-match behaviour of re.sub. -/
theorem replaceAll_append_match {pat repl : List Char} (hne : pat ≠ []) :
    ∀ a b, occursB pat (a ++ pat.dropLast) = false →
      replaceAll pat repl (a ++ (pat ++ b)) = a ++ (repl ++ replaceAll pat repl b) := by
  have hlen : 0 < pat.length := List.length_pos.mpr hne
  intro a
  induction a with
  | nil =>
    intro b _
    simp only [List.nil_append]
    cases hp : pat with
    | nil => exact absurd hp hne
    | cons x p' =>
      rw [List.cons_append]
      have hm : (!pat.isEmpty && pat.isPrefixOf (x :: (p' ++ b))) = true := by
        have h1 : pat.isEmpty = false := by simpa using hne
        have h2 : pat.isPrefixOf (x :: (p' ++ b)) = true := by
          apply List.isPrefixOf_iff_prefix.mpr
          rw [hp, ← List.cons_append]
          exact List.prefix_append _ _
        rw [h1, h2]
        rfl
      rw [hp] at hm
      rw [replaceAll_cons_pos hm]
      congr 1
      rw [← hp]
      congr 1
      have : (x :: p').length - 1 = p'.length := by simp
      rw [hp, this]
      exact List.drop_left p' b
  | cons x a' ih =>
    intro b h
    have hx : occursB pat (a' ++ pat.dropLast) = false := by
      rw [show (x :: a') ++ pat.dropLast = x :: (a' ++ pat.dropLast) from rfl,
        show occursB pat (x :: (a' ++ pat.dropLast)) =
          (pat.isPrefixOf (x :: (a' ++ pat.dropLast)) || occursB pat (a' ++ pat.dropLast))
          from rfl,
        Bool.or_eq_false_iff] at h
      exact h.2
    have hno : pat.isPrefixOf (x :: (a' ++ (pat ++ b))) = false := by
      cases hip : pat.isPrefixOf (x :: (a' ++ (pat ++ b))) with
      | false => rfl
      | true =>
        exfalso
        have hp : pat <+: x :: (a' ++ (pat ++ b)) := List.isPrefixOf_iff_prefix.mp hip
        have hlen2 : pat.length ≤ ((x :: a') ++ pat.dropLast).length := by
          simp only [List.length_append, List.length_dropLast, List.length_cons]
          omega
        have hpre2 : (x :: a') ++ pat.dropLast <+: x :: (a' ++ (pat ++ b)) := by
          rw [List.cons_append, List.cons_prefix_cons]
          refine ⟨rfl, ?_⟩
          apply (List.prefix_append_right_inj a').mpr
          exact ( List.dropLast_prefix pat).trans (List.prefix_append pat b)
        have hfin := List.prefix_of_prefix_length_le hp hpre2 hlen2
        have : occursB pat ((x :: a') ++ pat.dropLast) = true :=
          occursB_true_iff.mpr hfin.isInfix
        rw [this] at h
        exact absurd h (by decide)
    rw [show (x :: a') ++ (pat ++ b) = x :: (a' ++ (pat ++ b)) from rfl]
    rw [replaceAll_cons_of_not_isPrefixOf hno]
    rw [ih b hx]
    rfl

/-- replaceAll on a text that starts with the pattern. -/
theorem replaceAll_head_match {pat repl : List Char} (hne : pat ≠ []) (b : List Char) :
    replaceAll pat repl (pat ++ b) = repl ++ replaceAll pat repl b := by
  have h0 : occursB pat ([] ++ pat.dropLast) = false := by
    simp only [List.nil_append]
    apply occursB_eq_false_of_length
    have : 0 < pat.length := List.length_pos.mpr hne
    simp only [List.length_dropLast]
    omega
  simpa using replaceAll_append_match hne [] b h0

/-- Frame decomposition: the input splits into chunks separated by pattern
occurrences and replaceAll only exchanges those separators for the
replacement, keeping every chunk verbatim and in order. -/
theorem replaceAll_decompose {pat repl : List Char} (hne : pat ≠ []) :
    ∀ n s, s.length ≤ n → ∃ chunks : List (List Char), chunks ≠ [] ∧
      s = joinWith pat chunks ∧ replaceAll pat repl s = joinWith repl chunks := by
  intro n
  induction n with
  | zero =>
    intro s hs
    have hnil : s = [] := List.eq_nil_of_length_eq_zero (Nat.le_zero.mp hs)
    subst hnil
    exact ⟨[[]], by simp, rfl, rfl⟩
  | succ n ih =>
    intro s hs
    cases s with
    | nil => exact ⟨[[]], by simp, rfl, rfl⟩
    | cons c rest =>
      have hrest : rest.length ≤ n := by
        simp only [List.length_cons] at hs
        omega
      by_cases hm : (!pat.isEmpty && pat.isPrefixOf (c :: rest)) = true
      · have hpre : pat <+: c :: rest :=
          List.isPrefixOf_iff_prefix.mp ((Bool.and_eq_true _ _).mp hm).2
        obtain ⟨s', hs'⟩ := hpre
        have hdrop : List.drop (pat.length - 1) rest = s' := by
          have h1 : List.drop pat.length (c :: rest) = s' := by
            rw [← hs', List.drop_left]
          cases hp : pat with
          | nil => exact absurd hp hne
          | cons y p' =>
            rw [hp] at h1
            simpa using h1
        have hlen' : s'.length ≤ n := by
          have h2 := congrArg List.length hs'
          simp only [List.length_append, List.length_cons] at h2
          have h3 : 0 < pat.length := List.length_pos.mpr hne
          omega
        obtain ⟨chunks', hcne, hjoin, hrep⟩ := ih s' hlen'
        cases chunks' with
        | nil => exact absurd rfl hcne
        | cons k ks =>
          refine ⟨[] :: k :: ks, by simp, ?_, ?_⟩
          · rw [show joinWith pat ([] :: k :: ks) = [] ++ pat ++ joinWith pat (k :: ks)
              from rfl]
            rw [← hjoin, List.nil_append, hs']
          · rw [replaceAll_cons_pos hm, hdrop, hrep]
            rfl
      · have hmf : (!pat.isEmpty && pat.isPrefixOf (c :: rest)) = false :=
          Bool.eq_false_iff.mpr hm
        obtain ⟨chunks', hcne, hjoin, hrep⟩ := ih rest hrest
        cases chunks' with
        | nil => exact absurd rfl hcne
        | cons k ks =>
          refine ⟨(c :: k) :: ks, by simp, ?_, ?_⟩
          · cases ks with
            | nil =>
              simp only [joinWith] at hjoin ⊢
              rw [hjoin]
            | cons k2 ks2 =>
              simp only [joinWith] at hjoin ⊢
              rw [hjoin]
              simp [List.cons_append, List.append_assoc]
          · rw [replaceAll_cons_neg hmf, hrep]
            cases ks with
            | nil => simp [joinWith]
            | cons k2 ks2 =>
              simp only [joinWith]
              simp [List.cons_append, List.append_assoc]

/-- Iterative check that no nonempty suffix of the second list is a prefix of q. -/
def noTailPrefixB (q : List Char) : List Char → Bool
  | [] => true
  | c :: rest => !((c :: rest).isPrefixOf q) && noTailPrefixB q rest

/-- What noTailPrefixB decides. -/
theorem noTailPrefixB_sound {q l : List Char} (h : noTailPrefixB q l = true) :
    ∀ t, t <:+ l → t ≠ [] → ¬ t <+: q := by
  induction l with
  | nil =>
    intro t ht hne
    exact absurd (List.suffix_nil.mp ht) hne
  | cons c rest ih =>
    rw [show noTailPrefixB q (c :: rest) =
        (!((c :: rest).isPrefixOf q) && noTailPrefixB q rest) from rfl,
      Bool.and_eq_true] at h
    intro t ht hne hp
    rcases List.suffix_cons_iff.mp ht with he | ht'
    · subst he
      rw [List.isPrefixOf_iff_prefix.mpr hp] at h
      exact absurd h.1 (by decide)
    · exact ih h.2 t ht' hne hp

/-- A proper suffix of a list is a suffix of its tail. -/
theorem suffix_tail_of_ne {w p : List Char} (h : w <:+ p) (hne : w ≠ p) : w <:+ p.tail := by
  cases p with
  | nil => simp [List.suffix_nil.mp h]
  | cons c rest =>
    rcases List.suffix_cons_iff.mp h with he | h'
    · exact absurd he hne
    · exact h'

/-- SafePair follows from the four iterative checks. -/
theorem safePair_of_checks {p repl : List Char}
    (h1 : noTailPrefixB p repl = true)
    (h2 : noTailPrefixB repl p.tail = true)
    (h3 : occursB p repl = false)
    (h4 : occursB repl p = false) : SafePair p repl := by
  refine ⟨?_, ?_, ?_, ?_⟩
  · intro t hmem
    by_cases ht : t = []
    · exact Or.inl ht
    · exact Or.inr (noTailPrefixB_sound h1 t ((List.mem_tails _ _).mp hmem) ht)
  · intro w hmem
    by_cases hw : w = []
    · exact Or.inl hw
    by_cases hwp : w = p
    · exact Or.inr (Or.inl hwp)
    · refine Or.inr (Or.inr ?_)
      exact noTailPrefixB_sound h2 w
        (suffix_tail_of_ne ((List.mem_tails _ _).mp hmem) hwp) hw
  · rw [occursB_eq_false_iff] at h3
    exact h3
  · rw [occursB_eq_false_iff] at h4
    exact h4

/-- Overlap check for substitution 1 against its own replacement. -/
theorem safe11 : SafePair pat1 rep1 :=
  safePair_of_checks (by decide) (by decide) (by decide) (by decide)

/-- Overlap check of pattern 1 against replacement 2. -/
theorem safe12 : SafePair pat1 rep2 :=
  safePair_of_checks (by decide) (by decide) (by decide) (by decide)

/-- Overlap check of pattern 1 against replacement 3. -/
theorem safe13 : SafePair pat1 rep3 :=
  safePair_of_checks (by decide) (by decide) (by decide) (by decide)

/-- Overlap check of pattern 1 against replacement 5. -/
theorem safe15 : SafePair pat1 rep5 :=
  safePair_of_checks (by decide) (by decide) (by decide) (by decide)

/-- Overlap check of pattern 1 against replacement 6. -/
theorem safe16 : SafePair pat1 rep6 :=
  safePair_of_checks (by decide) (by decide) (by decide) (by decide)

/-- Overlap check for substitution 2 against its own replacement. -/
theorem safe22 : SafePair pat2 rep2 :=
  safePair_of_checks (by decide) (by decide) (by decide) (by decide)

/-- Overlap check of pattern 2 against replacement 3. -/
theorem safe23 : SafePair pat2 rep3 :=
  safePair_of_checks (by decide) (by decide) (by decide) (by decide)

/-- Overlap check of pattern 2 against replacement 5. -/
theorem safe25 : SafePair pat2 rep5 :=
  safePair_of_checks (by decide) (by decide) (by decide) (by decide)

/-- Overlap check of pattern 2 against replacement 6. -/
theorem safe26 : SafePair pat2 rep6 :=
  safePair_of_checks (by decide) (by decide) (by decide) (by decide)

/-- Overlap check for substitution 3 against its own replacement. -/
theorem safe33 : SafePair pat3 rep3 :=
  safePair_of_checks (by decide) (by decide) (by decide) (by decide)

/-- Overlap check of pattern 3 against replacement 5. -/
theorem safe35 : SafePair pat3 rep5 :=
  safePair_of_checks (by decide) (by decide) (by decide) (by decide)

/-- Overlap check of pattern 3 against replacement 6. -/
theorem safe36 : SafePair pat3 rep6 :=
  safePair_of_checks (by decide) (by decide) (by decide) (by decide)

/-- Overlap check for substitution 5 against its own replacement. -/
theorem safe55 : SafePair pat5 rep5 :=
  safePair_of_checks (by decide) (by decide) (by decide) (by decide)

/-- Overlap check of pattern 5 against replacement 6. -/
theorem safe56 : SafePair pat5 rep6 :=
  safePair_of_checks (by decide) (by decide) (by decide) (by decide)

/-- Overlap check for substitution 6 against its own replacement. -/
theorem safe66 : SafePair pat6 rep6 :=
  safePair_of_checks (by decide) (by decide) (by decide) (by decide)

/-- None of the six patterns is empty. -/
theorem pats_ne_nil :
    pat1 ≠ [] ∧ pat2 ≠ [] ∧ pat3 ≠ [] ∧ pat4 ≠ [] ∧ pat5 ≠ [] ∧ pat6 ≠ [] := by
  refine ⟨?_, ?_, ?_, ?_, ?_, ?_⟩ <;> decide

/-- Pattern 2 is a substring of pattern 4: the handleSubmit block contains the
reset line verbatim. -/
theorem pat2_infix_pat4 : pat2 <:+: pat4 :=
  ⟨pat4A, pat4B, by rw [show pat4 = pat4A ++ pat2 ++ pat4B from rfl]⟩

/-- Claim C3: the rewrite is idempotent on its own output.  After one run of
the six substitutions none of the six original patterns occurs in the result
(patterns 1, 2, 3, 5, 6 are eliminated by their own pass and never reintroduced
by a later pass; pattern 4 cannot occur because it contains pattern 2), so a
second run is byte-identical to the first. -/
theorem claim_C3 : ∀ t, applyAll (applyAll t) = applyAll t := by
  intro t
  obtain ⟨hne1, hne2, hne3, hne4, hne5, hne6⟩ := pats_ne_nil
  have h1_1 : occursB pat1 (sub1 t) = false :=
    occursB_replaceAll_self hne1 safe11 t
  have h1_2 : occursB pat1 (sub2 (sub1 t)) = false :=
    occursB_replaceAll_preserve safe12 h1_1
  have h2_2 : occursB pat2 (sub2 (sub1 t)) = false :=
    occursB_replaceAll_self hne2 safe22 _
  have h1_3 : occursB pat1 (sub3 (sub2 (sub1 t))) = false :=
    occursB_replaceAll_preserve safe13 h1_2
  have h2_3 : occursB pat2 (sub3 (sub2 (sub1 t))) = false :=
    occursB_replaceAll_preserve safe23 h2_2
  have h3_3 : occursB pat3 (sub3 (sub2 (sub1 t))) = false :=
    occursB_replaceAll_self hne3 safe33 _
  have h4_3 : occursB pat4 (sub3 (sub2 (sub1 t))) = false := by
    rw [occursB_eq_false_iff]
    intro hin
    have h24 := pat2_infix_pat4.trans hin
    rw [← occursB_true_iff] at h24
    rw [h2_3] at h24
    exact Bool.false_ne_true h24
  have ht4 : sub4 (sub3 (sub2 (sub1 t))) = sub3 (sub2 (sub1 t)) :=
    replaceAll_of_not_occurs h4_3
  have h1_4 : occursB pat1 (sub4 (sub3 (sub2 (sub1 t)))) = false := by
    rw [ht4]; exact h1_3
  have h2_4 : occursB pat2 (sub4 (sub3 (sub2 (sub1 t)))) = false := by
    rw [ht4]; exact h2_3
  have h3_4 : occursB pat3 (sub4 (sub3 (sub2 (sub1 t)))) = false := by
    rw [ht4]; exact h3_3
  have h1_5 : occursB pat1 (sub5 (sub4 (sub3 (sub2 (sub1 t))))) = false :=
    occursB_replaceAll_preserve safe15 h1_4
  have h2_5 : occursB pat2 (sub5 (sub4 (sub3 (sub2 (sub1 t))))) = false :=
    occursB_replaceAll_preserve safe25 h2_4
  have h3_5 : occursB pat3 (sub5 (sub4 (sub3 (sub2 (sub1 t))))) = false :=
    occursB_replaceAll_preserve safe35 h3_4
  have h5_5 : occursB pat5 (sub5 (sub4 (sub3 (sub2 (sub1 t))))) = false :=
    occursB_replaceAll_self hne5 safe55 _
  have h1_6 : occursB pat1 (sub6 (sub5 (sub4 (sub3 (sub2 (sub1 t)))))) = false :=
    occursB_replaceAll_preserve safe16 h1_5
  have h2_6 : occursB pat2 (sub6 (sub5 (sub4 (sub3 (sub2 (sub1 t)))))) = false :=
    occursB_replaceAll_preserve safe26 h2_5
  have h3_6 : occursB pat3 (sub6 (sub5 (sub4 (sub3 (sub2 (sub1 t)))))) = false :=
    occursB_replaceAll_preserve safe36 h3_5
  have h5_6 : occursB pat5 (sub6 (sub5 (sub4 (sub3 (sub2 (sub1 t)))))) = false :=
    occursB_replaceAll_preserve safe56 h5_5
  have h6_6 : occursB pat6 (sub6 (sub5 (sub4 (sub3 (sub2 (sub1 t)))))) = false :=
    occursB_replaceAll_self hne6 safe66 _
  have h4_6 : occursB pat4 (sub6 (sub5 (sub4 (sub3 (sub2 (sub1 t)))))) = false := by
    rw [occursB_eq_false_iff]
    intro hin
    have h24 := pat2_infix_pat4.trans hin
    rw [← occursB_true_iff] at h24
    rw [h2_6] at h24
    exact Bool.false_ne_true h24
  have e1 : sub1 (applyAll t) = applyAll t :=
    replaceAll_of_not_occurs (show occursB pat1 (applyAll t) = false from h1_6)
  have e2 : sub2 (applyAll t) = applyAll t :=
    replaceAll_of_not_occurs (show occursB pat2 (applyAll t) = false from h2_6)
  have e3 : sub3 (applyAll t) = applyAll t :=
    replaceAll_of_not_occurs (show occursB pat3 (applyAll t) = false from h3_6)
  have e4 : sub4 (applyAll t) = applyAll t :=
    replaceAll_of_not_occurs (show occursB pat4 (applyAll t) = false from h4_6)
  have e5 : sub5 (applyAll t) = applyAll t :=
    replaceAll_of_not_occurs (show occursB pat5 (applyAll t) = false from h5_6)
  have e6 : sub6 (applyAll t) = applyAll t :=
    replaceAll_of_not_occurs (show occursB pat6 (applyAll t) = false from h6_6)
  show sub6 (sub5 (sub4 (sub3 (sub2 (sub1 (applyAll t)))))) = applyAll t
  rw [e1, e2, e3, e4, e5, e6]

/-- Every pattern in the substitution table is non-empty. -/
theorem ne_nil_of_mem_subsList {p r : List Char} (hm : (p, r) ∈ subsList) : p ≠ [] := by
  obtain ⟨h1, h2, h3, h4, h5, h6⟩ := pats_ne_nil
  simp only [subsList, List.mem_cons, List.not_mem_nil, or_false, Prod.mk.injEq] at hm
  rcases hm with ⟨rfl, _⟩ | ⟨rfl, _⟩ | ⟨rfl, _⟩ | ⟨rfl, _⟩ | ⟨rfl, _⟩ | ⟨rfl, _⟩ <;>
    assumption

/-- Claim C10: frame property.  For each of the six transformations and every
input, the input splits into chunks interleaved with the pattern and the
transformation's output is exactly the same chunks interleaved with the
replacement: text outside matched occurrences is never altered, reordered or
dropped.  applyAll is the composition of the six transformations, so this
applies at every stage of the evolving text. -/
theorem claim_C10 : ∀ p r, (p, r) ∈ subsList → ∀ t,
    ∃ chunks : List (List Char), chunks ≠ [] ∧
      t = joinWith p chunks ∧ replaceAll p r t = joinWith r chunks := by
  intro p r hm t
  exact replaceAll_decompose (ne_nil_of_mem_subsList hm) t.length t (Nat.le_refl _)

/-- Witness for claim C10: the decomposition at substitution 1 on a concrete
three-character text. -/
theorem claim_C10_witness : ∃ chunks : List (List Char), chunks ≠ [] ∧
    "xyz".data = joinWith pat1 chunks ∧
    replaceAll pat1 rep1 "xyz".data = joinWith rep1 chunks :=
  claim_C10 pat1 rep1 (by simp [subsList]) "xyz".data

/-- Claim C9: each of the six transformations replaces every non-overlapping
occurrence of its pattern, not just the first: an input with two occurrences
has both rewritten (global-match semantics). -/
theorem claim_C9 : ∀ p r, (p, r) ∈ subsList → ∀ a b c : List Char,
    occursB p (a ++ p.dropLast) = false →
    occursB p (b ++ p.dropLast) = false →
    occursB p c = false →
    replaceAll p r (a ++ (p ++ (b ++ (p ++ c)))) = a ++ (r ++ (b ++ (r ++ c))) := by
  intro p r hm a b c ha hb hc
  have hne : p ≠ [] := ne_nil_of_mem_subsList hm
  rw [replaceAll_append_match hne a (b ++ (p ++ c)) ha]
  rw [replaceAll_append_match hne b c hb]
  rw [replaceAll_of_not_occurs hc]

/-- Witness for claim C9: substitution 2 on a text with two occurrences of its
pattern. -/
theorem claim_C9_witness :
    replaceAll pat2 rep2 ("A\n".data ++ (pat2 ++ ("\nB\n".data ++ (pat2 ++ "\nC".data)))) =
      "A\n".data ++ (rep2 ++ ("\nB\n".data ++ (rep2 ++ "\nC".data))) :=
  claim_C9 pat2 rep2 (by simp [subsList]) "A\n".data "\nB\n".data "\nC".data
    (by decide) (by decide) (by decide)

/-- Claim C5: an input whose state-declaration context contains the line
customerId: undefined as number | undefined (that is, an input containing
pattern 1) has that context rewritten in place to the customerFirestoreId
form (replacement 1), while an occurrence of the bare line outside that
context, matching none of the six patterns, is left exactly as it was, in the
same position.  The hypotheses say that the surrounding pieces a, b, c contain
no pattern occurrence and create none at the junctions. -/
theorem claim_C5 (a b c : List Char)
    (h1 : occursB pat1 (a ++ pat1.dropLast) = false)
    (h2 : occursB pat1 (b ++ (bareLine ++ c)) = false)
    (h3 : occursB pat2 (a ++ (rep1 ++ (b ++ (bareLine ++ c)))) = false)
    (h4 : occursB pat3 (a ++ (rep1 ++ (b ++ (bareLine ++ c)))) = false)
    (h5 : occursB pat4 (a ++ (rep1 ++ (b ++ (bareLine ++ c)))) = false)
    (h6 : occursB pat5 (a ++ (rep1 ++ (b ++ (bareLine ++ c)))) = false)
    (h7 : occursB pat6 (a ++ (rep1 ++ (b ++ (bareLine ++ c)))) = false) :
    applyAll (a ++ (pat1 ++ (b ++ (bareLine ++ c)))) =
      a ++ (rep1 ++ (b ++ (bareLine ++ c))) := by
  obtain ⟨hne1, _, _, _, _, _⟩ := pats_ne_nil
  simp only [applyAll, sub1, sub2, sub3, sub4, sub5, sub6]
  rw [replaceAll_append_match hne1 a (b ++ (bareLine ++ c)) h1]
  rw [replaceAll_of_not_occurs h2]
  rw [replaceAll_of_not_occurs h3]
  rw [replaceAll_of_not_occurs h4]
  rw [replaceAll_of_not_occurs h5]
  rw [replaceAll_of_not_occurs h6]
  rw [replaceAll_of_not_occurs h7]

/-- Witness for claim C5 on a concrete input: the context occurrence is
rewritten, the bare line after it is untouched. -/
theorem claim_C5_witness :
    applyAll ("// header\n".data ++ (pat1 ++ ("\nmiddle section\n".data ++
        (bareLine ++ "\nfooter".data)))) =
      "// header\n".data ++ (rep1 ++ ("\nmiddle section\n".data ++
        (bareLine ++ "\nfooter".data))) :=
  claim_C5 "// header\n".data "\nmiddle section\n".data "\nfooter".data
    (by decide) (by decide) (by decide) (by decide) (by decide) (by decide) (by decide)

/-- Claim C4: the script signals an I/O error and aborts before any write when
the fixed path cannot be opened for reading: the run errors exactly when the
read fails, and in that case the filesystem is unchanged (in particular the
file is not created) and no event is performed. -/
theorem claim_C4 (fs : List (List Char × List Char)) :
    ((runScript fs).1 = Outcome.ioError ↔ lookupFile fs targetPath = none) ∧
    (lookupFile fs targetPath = none → runScript fs = (Outcome.ioError, fs, [])) := by
  cases hlk : lookupFile fs targetPath with
  | none =>
    refine ⟨⟨fun _ => rfl, fun _ => ?_⟩, fun _ => ?_⟩ <;>
      simp [runScript, hlk]
  | some content =>
    refine ⟨⟨fun hx => ?_, fun hx => ?_⟩, fun hx => ?_⟩
    · rw [show runScript fs = (Outcome.ok, writeFile fs targetPath (applyAll content),
        [Ev.readEv targetPath content, Ev.writeEv targetPath (applyAll content),
         Ev.printEv successLine]) from by simp [runScript, hlk]] at hx
      exact absurd hx (by simp)
    · exact absurd hx (by simp)
    · exact absurd hx (by simp)

/-- Witness for claim C4: the empty filesystem has no file at the target path,
the run errors, writes nothing and creates nothing. -/
theorem claim_C4_witness :
    runScript [] = (Outcome.ioError, [], []) ∧ lookupFile [] targetPath = none :=
  ⟨(claim_C4 []).2 rfl, rfl⟩

/-- Claim C6: on a successful run the content written back is exactly the six
substitutions composed in their fixed textual order applied to the content
read (each substitution's input being the previous one's output), and it is
written to the very path that was read, overwriting that entry. -/
theorem claim_C6 (fs : List (List Char × List Char)) (content : List Char)
    (h : lookupFile fs targetPath = some content) :
    runScript fs = (Outcome.ok,
      writeFile fs targetPath
        (replaceAll pat6 rep6 (replaceAll pat5 rep5 (replaceAll pat4 rep4
          (replaceAll pat3 rep3 (replaceAll pat2 rep2 (replaceAll pat1 rep1 content)))))),
      [Ev.readEv targetPath content,
       Ev.writeEv targetPath
        (replaceAll pat6 rep6 (replaceAll pat5 rep5 (replaceAll pat4 rep4
          (replaceAll pat3 rep3 (replaceAll pat2 rep2 (replaceAll pat1 rep1 content)))))),
       Ev.printEv successLine]) := by
  simp only [runScript, h]
  rfl

/-- Witness for claim C6 on a one-file filesystem. -/
theorem claim_C6_witness :
    runScript [(targetPath, "x".data)] = (Outcome.ok,
      writeFile [(targetPath, "x".data)] targetPath
        (replaceAll pat6 rep6 (replaceAll pat5 rep5 (replaceAll pat4 rep4
          (replaceAll pat3 rep3 (replaceAll pat2 rep2 (replaceAll pat1 rep1 "x".data)))))),
      [Ev.readEv targetPath "x".data,
       Ev.writeEv targetPath
        (replaceAll pat6 rep6 (replaceAll pat5 rep5 (replaceAll pat4 rep4
          (replaceAll pat3 rep3 (replaceAll pat2 rep2 (replaceAll pat1 rep1 "x".data)))))),
       Ev.printEv successLine]) :=
  claim_C6 [(targetPath, "x".data)] "x".data (by simp [lookupFile])

/-- Claim C7: on a successful run the script emits exactly one line to
standard output, the literal success line, and it comes after the write event
in the trace; on a read failure it emits nothing at all. -/
theorem claim_C7 (fs : List (List Char × List Char)) :
    (lookupFile fs targetPath = none → (runScript fs).2.2 = []) ∧
    (∀ content, lookupFile fs targetPath = some content →
      (runScript fs).2.2 =
        [Ev.readEv targetPath content, Ev.writeEv targetPath (applyAll content),
         Ev.printEv successLine] ∧
      List.countP isPrintEv (runScript fs).2.2 = 1) := by
  constructor
  · intro h
    simp [runScript, h]
  · intro content h
    constructor
    · simp [runScript, h]
    · simp [runScript, h, List.countP, List.countP.go, isPrintEv]

/-- Witness for claim C7: both branches at concrete filesystems. -/
theorem claim_C7_witness :
    (runScript []).2.2 = [] ∧
    ((runScript [(targetPath, "x".data)]).2.2 =
      [Ev.readEv targetPath "x".data, Ev.writeEv targetPath (applyAll "x".data),
       Ev.printEv successLine] ∧
     List.countP isPrintEv (runScript [(targetPath, "x".data)]).2.2 = 1) :=
  ⟨(claim_C7 []).1 rfl,
   (claim_C7 [(targetPath, "x".data)]).2 "x".data (by simp [lookupFile])⟩

/-- Claim C8: the rewrite is deterministic.  Two runs whose target file holds
identical content at read time produce the same outcome and the same trace
(hence the identical written content and the identical success report),
whatever else the filesystems contain. -/
theorem claim_C8 (fs1 fs2 : List (List Char × List Char))
    (h : lookupFile fs1 targetPath = lookupFile fs2 targetPath) :
    (runScript fs1).1 = (runScript fs2).1 ∧
    (runScript fs1).2.2 = (runScript fs2).2.2 := by
  cases hlk : lookupFile fs1 targetPath with
  | none =>
    rw [hlk] at h
    constructor <;> simp [runScript, hlk, ← h]
  | some content =>
    rw [hlk] at h
    constructor <;> simp [runScript, hlk, ← h]

/-- Witness for claim C8: same file content inside two different filesystems. -/
theorem claim_C8_witness :
    (runScript [(targetPath, "x".data)]).1 =
      (runScript [("other".data, "y".data), (targetPath, "x".data)]).1 ∧
    (runScript [(targetPath, "x".data)]).2.2 =
      (runScript [("other".data, "y".data), (targetPath, "x".data)]).2.2 :=
  claim_C8 [(targetPath, "x".data)] [("other".data, "y".data), (targetPath, "x".data)]
    (by simp [lookupFile, targetPath])

/-- Running the six substitutions on the fixture with all six original
fragments: substitution 2 rewrites both the standalone reset line and the copy
inside the handleSubmit block, so substitution 4 no longer matches and is a
silent no-op. -/
theorem applyAll_fixtureAll : applyAll fixtureAll = outAllL := by
  obtain ⟨hne1, hne2, hne3, hne4, hne5, hne6⟩ := pats_ne_nil
  have e1 : sub1 fixtureAll =
      rep1 ++ (sepNl ++ (pat2 ++ (sepNl ++ (pat3 ++ (sepNl ++ (pat4 ++ (sepNl ++
        (pat5 ++ (sepNl ++ pat6))))))))) := by
    have hfix : fixtureAll =
        pat1 ++ (sepNl ++ (pat2 ++ (sepNl ++ (pat3 ++ (sepNl ++ (pat4 ++ (sepNl ++
          (pat5 ++ (sepNl ++ pat6))))))))) := by
      simp [fixtureAll, List.append_assoc]
    show replaceAll pat1 rep1 fixtureAll = _
    rw [hfix, replaceAll_head_match hne1]
    rw [replaceAll_of_not_occurs (show occursB pat1 (sepNl ++ (pat2 ++ (sepNl ++ (pat3 ++
      (sepNl ++ (pat4 ++ (sepNl ++ (pat5 ++ (sepNl ++ pat6))))))))) = false by decide)]
  have e2 : sub2 (rep1 ++ (sepNl ++ (pat2 ++ (sepNl ++ (pat3 ++ (sepNl ++ (pat4 ++
        (sepNl ++ (pat5 ++ (sepNl ++ pat6)))))))))) =
      rep1 ++ (sepNl ++ (rep2 ++ (sepNl ++ (pat3 ++ (sepNl ++ (pat4A ++ (rep2 ++
        (pat4B ++ (sepNl ++ (pat5 ++ (sepNl ++ pat6))))))))))) := by
    show replaceAll pat2 rep2 _ = _
    have hsh : rep1 ++ (sepNl ++ (pat2 ++ (sepNl ++ (pat3 ++ (sepNl ++ (pat4 ++
          (sepNl ++ (pat5 ++ (sepNl ++ pat6))))))))) =
        (rep1 ++ sepNl) ++ (pat2 ++ ((sepNl ++ (pat3 ++ (sepNl ++ pat4A))) ++ (pat2 ++
          (pat4B ++ (sepNl ++ (pat5 ++ (sepNl ++ pat6))))))) := by
      rw [show pat4 = pat4A ++ pat2 ++ pat4B from rfl]
      simp [List.append_assoc]
    rw [hsh]
    rw [replaceAll_append_match hne2 (rep1 ++ sepNl) _
      (show occursB pat2 ((rep1 ++ sepNl) ++ pat2.dropLast) = false by decide)]
    rw [replaceAll_append_match hne2 (sepNl ++ (pat3 ++ (sepNl ++ pat4A))) _
      (show occursB pat2 ((sepNl ++ (pat3 ++ (sepNl ++ pat4A))) ++ pat2.dropLast) = false
        by decide)]
    rw [replaceAll_of_not_occurs (show occursB pat2 (pat4B ++ (sepNl ++ (pat5 ++
      (sepNl ++ pat6)))) = false by decide)]
    simp [List.append_assoc]
  have e3 : sub3 (rep1 ++ (sepNl ++ (rep2 ++ (sepNl ++ (pat3 ++ (sepNl ++ (pat4A ++
        (rep2 ++ (pat4B ++ (sepNl ++ (pat5 ++ (sepNl ++ pat6)))))))))))) =
      rep1 ++ (sepNl ++ (rep2 ++ (sepNl ++ (rep3 ++ (sepNl ++ (pat4A ++ (rep2 ++
        (pat4B ++ (sepNl ++ (pat5 ++ (sepNl ++ pat6))))))))))) := by
    show replaceAll pat3 rep3 _ = _
    have hsh : rep1 ++ (sepNl ++ (rep2 ++ (sepNl ++ (pat3 ++ (sepNl ++ (pat4A ++ (rep2 ++
          (pat4B ++ (sepNl ++ (pat5 ++ (sepNl ++ pat6))))))))))) =
        (rep1 ++ (sepNl ++ (rep2 ++ sepNl))) ++ (pat3 ++ (sepNl ++ (pat4A ++ (rep2 ++
          (pat4B ++ (sepNl ++ (pat5 ++ (sepNl ++ pat6)))))))) := by
      simp [List.append_assoc]
    rw [hsh]
    rw [replaceAll_append_match hne3 (rep1 ++ (sepNl ++ (rep2 ++ sepNl))) _
      (show occursB pat3 ((rep1 ++ (sepNl ++ (rep2 ++ sepNl))) ++ pat3.dropLast) = false
        by decide)]
    rw [replaceAll_of_not_occurs (show occursB pat3 (sepNl ++ (pat4A ++ (rep2 ++ (pat4B ++
      (sepNl ++ (pat5 ++ (sepNl ++ pat6))))))) = false by decide)]
    simp [List.append_assoc]
  have e4 : sub4 (rep1 ++ (sepNl ++ (rep2 ++ (sepNl ++ (rep3 ++ (sepNl ++ (pat4A ++
        (rep2 ++ (pat4B ++ (sepNl ++ (pat5 ++ (sepNl ++ pat6)))))))))))) =
      rep1 ++ (sepNl ++ (rep2 ++ (sepNl ++ (rep3 ++ (sepNl ++ (pat4A ++ (rep2 ++
        (pat4B ++ (sepNl ++ (pat5 ++ (sepNl ++ pat6))))))))))) :=
    replaceAll_of_not_occurs (show occursB pat4 (rep1 ++ (sepNl ++ (rep2 ++ (sepNl ++
      (rep3 ++ (sepNl ++ (pat4A ++ (rep2 ++ (pat4B ++ (sepNl ++ (pat5 ++
      (sepNl ++ pat6)))))))))))) = false by decide)
  have e5 : sub5 (rep1 ++ (sepNl ++ (rep2 ++ (sepNl ++ (rep3 ++ (sepNl ++ (pat4A ++
        (rep2 ++ (pat4B ++ (sepNl ++ (pat5 ++ (sepNl ++ pat6)))))))))))) =
      rep1 ++ (sepNl ++ (rep2 ++ (sepNl ++ (rep3 ++ (sepNl ++ (pat4A ++ (rep2 ++
        (pat4B ++ (sepNl ++ (rep5 ++ (sepNl ++ pat6))))))))))) := by
    show replaceAll pat5 rep5 _ = _
    have hsh : rep1 ++ (sepNl ++ (rep2 ++ (sepNl ++ (rep3 ++ (sepNl ++ (pat4A ++ (rep2 ++
          (pat4B ++ (sepNl ++ (pat5 ++ (sepNl ++ pat6))))))))))) =
        (rep1 ++ (sepNl ++ (rep2 ++ (sepNl ++ (rep3 ++ (sepNl ++ (pat4A ++ (rep2 ++
          (pat4B ++ sepNl))))))))) ++ (pat5 ++ (sepNl ++ pat6)) := by
      simp [List.append_assoc]
    rw [hsh]
    rw [replaceAll_append_match hne5 (rep1 ++ (sepNl ++ (rep2 ++ (sepNl ++ (rep3 ++
      (sepNl ++ (pat4A ++ (rep2 ++ (pat4B ++ sepNl))))))))) _
      (show occursB pat5 ((rep1 ++ (sepNl ++ (rep2 ++ (sepNl ++ (rep3 ++ (sepNl ++
        (pat4A ++ (rep2 ++ (pat4B ++ sepNl))))))))) ++ pat5.dropLast) = false by decide)]
    rw [replaceAll_of_not_occurs (show occursB pat5 (sepNl ++ pat6) = false by decide)]
    simp [List.append_assoc]
  have e6 : sub6 (rep1 ++ (sepNl ++ (rep2 ++ (sepNl ++ (rep3 ++ (sepNl ++ (pat4A ++
        (rep2 ++ (pat4B ++ (sepNl ++ (rep5 ++ (sepNl ++ pat6)))))))))))) = outAllL := by
    show replaceAll pat6 rep6 _ = _
    have hsh : rep1 ++ (sepNl ++ (rep2 ++ (sepNl ++ (rep3 ++ (sepNl ++ (pat4A ++ (rep2 ++
          (pat4B ++ (sepNl ++ (rep5 ++ (sepNl ++ pat6))))))))))) =
        (rep1 ++ (sepNl ++ (rep2 ++ (sepNl ++ (rep3 ++ (sepNl ++ (pat4A ++ (rep2 ++
          (pat4B ++ (sepNl ++ (rep5 ++ sepNl))))))))))) ++ (pat6 ++ []) := by
      simp [List.append_assoc]
    rw [hsh]
    rw [replaceAll_append_match hne6 (rep1 ++ (sepNl ++ (rep2 ++ (sepNl ++ (rep3 ++
      (sepNl ++ (pat4A ++ (rep2 ++ (pat4B ++ (sepNl ++ (rep5 ++ sepNl))))))))))) _
      (show occursB pat6 ((rep1 ++ (sepNl ++ (rep2 ++ (sepNl ++ (rep3 ++ (sepNl ++
        (pat4A ++ (rep2 ++ (pat4B ++ (sepNl ++ (rep5 ++ sepNl))))))))))) ++
        pat6.dropLast) = false by decide)]
    rw [show replaceAll pat6 rep6 ([] : List Char) = [] from rfl]
    simp [outAllL, List.append_assoc]
  show sub6 (sub5 (sub4 (sub3 (sub2 (sub1 fixtureAll))))) = outAllL
  rw [e1, e2, e3, e4, e5, e6]

/-- Claim C1 evaluated: the fixture contains all six original fragments
verbatim, yet the output of the six substitutions does not contain the
handleSubmit replacement (replacement 4) — only the other five replacements
appear, and none of the six originals survives.  The claim that all six
replacement fragments appear is therefore false of the code: substitution 2
rewrites the reset line inside the handleSubmit block before substitution 4
runs, so pattern 4 never matches. -/
theorem claim_C1 :
    (occursB pat1 fixtureAll = true ∧ occursB pat2 fixtureAll = true ∧
     occursB pat3 fixtureAll = true ∧ occursB pat4 fixtureAll = true ∧
     occursB pat5 fixtureAll = true ∧ occursB pat6 fixtureAll = true) ∧
    applyAll fixtureAll = outAllL ∧
    occursB rep4 outAllL = false ∧
    (occursB pat1 outAllL = false ∧ occursB pat2 outAllL = false ∧
     occursB pat3 outAllL = false ∧ occursB pat4 outAllL = false ∧
     occursB pat5 outAllL = false ∧ occursB pat6 outAllL = false) ∧
    (occursB rep1 outAllL = true ∧ occursB rep2 outAllL = true ∧
     occursB rep3 outAllL = true ∧ occursB rep5 outAllL = true ∧
     occursB rep6 outAllL = true) := by
  refine ⟨⟨?_, ?_, ?_, ?_, ?_, ?_⟩, applyAll_fixtureAll, ?_, ⟨?_, ?_, ?_, ?_, ?_, ?_⟩,
    ⟨?_, ?_, ?_, ?_, ?_⟩⟩ <;> decide

/-- Running the six substitutions on the fixture that misses only fragment 1:
substitution 1 is a silent no-op, substitutions 2, 3, 5 and 6 fire, and
substitution 4 again never matches because its inner reset line was already
rewritten by substitution 2. -/
theorem applyAll_fixtureMissing : applyAll fixtureMissing = outMissingL := by
  obtain ⟨hne1, hne2, hne3, hne4, hne5, hne6⟩ := pats_ne_nil
  have e1 : sub1 fixtureMissing = fixtureMissing :=
    replaceAll_of_not_occurs (show occursB pat1 fixtureMissing = false by decide)
  have e2 : sub2 fixtureMissing =
      rep2 ++ (sepNl ++ (pat3 ++ (sepNl ++ (pat4A ++ (rep2 ++ (pat4B ++ (sepNl ++
        (pat5 ++ (sepNl ++ pat6))))))))) := by
    show replaceAll pat2 rep2 _ = _
    have hsh : fixtureMissing =
        pat2 ++ ((sepNl ++ (pat3 ++ (sepNl ++ pat4A))) ++ (pat2 ++ (pat4B ++ (sepNl ++
          (pat5 ++ (sepNl ++ pat6)))))) := by
      rw [show fixtureMissing =
        pat2 ++ sepNl ++ pat3 ++ sepNl ++ (pat4A ++ pat2 ++ pat4B) ++ sepNl ++ pat5 ++
          sepNl ++ pat6 from by rw [show pat4A ++ pat2 ++ pat4B = pat4 from rfl]; rfl]
      simp [List.append_assoc]
    rw [hsh, replaceAll_head_match hne2]
    rw [replaceAll_append_match hne2 (sepNl ++ (pat3 ++ (sepNl ++ pat4A))) _
      (show occursB pat2 ((sepNl ++ (pat3 ++ (sepNl ++ pat4A))) ++ pat2.dropLast) = false
        by decide)]
    rw [replaceAll_of_not_occurs (show occursB pat2 (pat4B ++ (sepNl ++ (pat5 ++
      (sepNl ++ pat6)))) = false by decide)]
    simp [List.append_assoc]
  have e3 : sub3 (rep2 ++ (sepNl ++ (pat3 ++ (sepNl ++ (pat4A ++ (rep2 ++ (pat4B ++
        (sepNl ++ (pat5 ++ (sepNl ++ pat6)))))))))) =
      rep2 ++ (sepNl ++ (rep3 ++ (sepNl ++ (pat4A ++ (rep2 ++ (pat4B ++ (sepNl ++
        (pat5 ++ (sepNl ++ pat6))))))))) := by
    show replaceAll pat3 rep3 _ = _
    have hsh : rep2 ++ (sepNl ++ (pat3 ++ (sepNl ++ (pat4A ++ (rep2 ++ (pat4B ++
          (sepNl ++ (pat5 ++ (sepNl ++ pat6))))))))) =
        (rep2 ++ sepNl) ++ (pat3 ++ (sepNl ++ (pat4A ++ (rep2 ++ (pat4B ++ (sepNl ++
          (pat5 ++ (sepNl ++ pat6)))))))) := by
      simp [List.append_assoc]
    rw [hsh]
    rw [replaceAll_append_match hne3 (rep2 ++ sepNl) _
      (show occursB pat3 ((rep2 ++ sepNl) ++ pat3.dropLast) = false by decide)]
    rw [replaceAll_of_not_occurs (show occursB pat3 (sepNl ++ (pat4A ++ (rep2 ++ (pat4B ++
      (sepNl ++ (pat5 ++ (sepNl ++ pat6))))))) = false by decide)]
    simp [List.append_assoc]
  have e4 : sub4 (rep2 ++ (sepNl ++ (rep3 ++ (sepNl ++ (pat4A ++ (rep2 ++ (pat4B ++
        (sepNl ++ (pat5 ++ (sepNl ++ pat6)))))))))) =
      rep2 ++ (sepNl ++ (rep3 ++ (sepNl ++ (pat4A ++ (rep2 ++ (pat4B ++ (sepNl ++
        (pat5 ++ (sepNl ++ pat6))))))))) :=
    replaceAll_of_not_occurs (show occursB pat4 (rep2 ++ (sepNl ++ (rep3 ++ (sepNl ++
      (pat4A ++ (rep2 ++ (pat4B ++ (sepNl ++ (pat5 ++ (sepNl ++ pat6)))))))))) = false
      by decide)
  have e5 : sub5 (rep2 ++ (sepNl ++ (rep3 ++ (sepNl ++ (pat4A ++ (rep2 ++ (pat4B ++
        (sepNl ++ (pat5 ++ (sepNl ++ pat6)))))))))) =
      rep2 ++ (sepNl ++ (rep3 ++ (sepNl ++ (pat4A ++ (rep2 ++ (pat4B ++ (sepNl ++
        (rep5 ++ (sepNl ++ pat6))))))))) := by
    show replaceAll pat5 rep5 _ = _
    have hsh : rep2 ++ (sepNl ++ (rep3 ++ (sepNl ++ (pat4A ++ (rep2 ++ (pat4B ++
          (sepNl ++ (pat5 ++ (sepNl ++ pat6))))))))) =
        (rep2 ++ (sepNl ++ (rep3 ++ (sepNl ++ (pat4A ++ (rep2 ++ (pat4B ++ sepNl))))))) ++
          (pat5 ++ (sepNl ++ pat6)) := by
      simp [List.append_assoc]
    rw [hsh]
    rw [replaceAll_append_match hne5 (rep2 ++ (sepNl ++ (rep3 ++ (sepNl ++ (pat4A ++
      (rep2 ++ (pat4B ++ sepNl))))))) _
      (show occursB pat5 ((rep2 ++ (sepNl ++ (rep3 ++ (sepNl ++ (pat4A ++ (rep2 ++
        (pat4B ++ sepNl))))))) ++ pat5.dropLast) = false by decide)]
    rw [replaceAll_of_not_occurs (show occursB pat5 (sepNl ++ pat6) = false by decide)]
    simp [List.append_assoc]
  have e6 : sub6 (rep2 ++ (sepNl ++ (rep3 ++ (sepNl ++ (pat4A ++ (rep2 ++ (pat4B ++
        (sepNl ++ (rep5 ++ (sepNl ++ pat6)))))))))) = outMissingL := by
    show replaceAll pat6 rep6 _ = _
    have hsh : rep2 ++ (sepNl ++ (rep3 ++ (sepNl ++ (pat4A ++ (rep2 ++ (pat4B ++
          (sepNl ++ (rep5 ++ (sepNl ++ pat6))))))))) =
        (rep2 ++ (sepNl ++ (rep3 ++ (sepNl ++ (pat4A ++ (rep2 ++ (pat4B ++ (sepNl ++
          (rep5 ++ sepNl))))))))) ++ (pat6 ++ []) := by
      simp [List.append_assoc]
    rw [hsh]
    rw [replaceAll_append_match hne6 (rep2 ++ (sepNl ++ (rep3 ++ (sepNl ++ (pat4A ++
      (rep2 ++ (pat4B ++ (sepNl ++ (rep5 ++ sepNl))))))))) _
      (show occursB pat6 ((rep2 ++ (sepNl ++ (rep3 ++ (sepNl ++ (pat4A ++ (rep2 ++
        (pat4B ++ (sepNl ++ (rep5 ++ sepNl))))))))) ++ pat6.dropLast) = false by decide)]
    rw [show replaceAll pat6 rep6 ([] : List Char) = [] from rfl]
    simp [outMissingL, List.append_assoc]
  show sub6 (sub5 (sub4 (sub3 (sub2 (sub1 fixtureMissing))))) = outMissingL
  rw [e1, e2, e3, e4, e5, e6]

/-- Claim C2 evaluated on the partial-match case: a fixture that misses exactly
one original fragment (fragment 1) and contains the other five.  The run
completes, but the other five fragments are not all replaced: the handleSubmit
replacement (replacement 4) does not appear in the output, because
substitution 2 rewrote the reset line inside the still-present handleSubmit
block before substitution 4 ran.  Only replacements 2, 3, 5 and 6 appear. -/
theorem claim_C2 :
    (occursB pat1 fixtureMissing = false ∧ occursB pat2 fixtureMissing = true ∧
     occursB pat3 fixtureMissing = true ∧ occursB pat4 fixtureMissing = true ∧
     occursB pat5 fixtureMissing = true ∧ occursB pat6 fixtureMissing = true) ∧
    applyAll fixtureMissing = outMissingL ∧
    occursB rep4 outMissingL = false ∧
    (occursB rep2 outMissingL = true ∧ occursB rep3 outMissingL = true ∧
     occursB rep5 outMissingL = true ∧ occursB rep6 outMissingL = true) := by
  refine ⟨⟨?_, ?_, ?_, ?_, ?_, ?_⟩, applyAll_fixtureMissing, ?_, ⟨?_, ?_, ?_, ?_⟩⟩ <;>
    decide
